import Mathlib

/-!
Verification of the pixeltable-doctools navigation-merge, version-parsing,
path-rewriting, formatting and content-generation logic.

Python strings are modelled as `List Char`; Python exceptions as `Except`
errors; JSON manifests as inductive data mirroring the keys the code reads.
Each definition carries a comment naming the source function it embeds.
-/

namespace Doctools

/-- Python strings, modelled as lists of characters. -/
abbrev Str := List Char

/-! ### Version parsing (src/doctools/deploy/deploy_docs_stage.py) -/

/-- The leading all-digit run of a string and the rest, as produced by the
regex fragment `\d+` when matched greedily at the start. -/
def takeDigits (s : Str) : Str × Str :=
  (s.takeWhile Char.isDigit, s.dropWhile Char.isDigit)

/-- Embeds the anchored regex match `re.match(r'(v\d+\.\d+)', ...)` applied to
the text after the leading 'v': greedily matches one-or-more digits, a dot,
one-or-more digits, returning (major digits, minor digits, remaining text). -/
def matchVMajorMinor? (cs : Str) : Option (Str × Str × Str) :=
  let a := cs.takeWhile Char.isDigit
  let r1 := cs.dropWhile Char.isDigit
  if a.isEmpty then none
  else
    match r1 with
    | '.' :: r2 =>
      let b := r2.takeWhile Char.isDigit
      let r3 := r2.dropWhile Char.isDigit
      if b.isEmpty then none else some (a, b, r3)
    | _ => none

/-- Python's `s.startswith(pre)`. -/
def pyStartsWith (pre s : Str) : Bool := pre.isPrefixOf s

/-- Embeds the anchored regex match `re.match(r'(v\d+\.\d+)', cs)`: a literal
'v' followed by digits, a dot, and digits. -/
def matchV? (cs : Str) : Option (Str × Str × Str) :=
  if pyStartsWith ['v'] cs then matchVMajorMinor? cs.tail else none

/-- Embeds the normalisation step of `parse_version`
(deploy_docs_stage.py lines 114-115): prepend 'v' unless the string already
starts with a lowercase 'v'. -/
def pyNormV (s : Str) : Str :=
  if pyStartsWith ['v'] s then s else 'v' :: s

/-- Embeds `parse_version` (src/doctools/deploy/deploy_docs_stage.py lines
104-123).  Returns `(full_version, major_minor)` on success; on failure the
code raises `ValueError("Invalid version format: ...")`, modelled as an
`Except.error` carrying the message. -/
def parse_version (s : Str) : Except Str (Str × Str) :=
  let v := pyNormV s
  match matchV? v with
  | some (a, b, _) => .ok (v, 'v' :: (a ++ '.' :: b))
  | none =>
    .error (("Invalid version format: ").data ++ v ++ (". Expected format: v0.4.17").data)

/-- The string after one optional leading 'v' (used to state the spec's
"leading major.minor numeric pattern" predicate). -/
def stripOptV (s : Str) : Str :=
  if pyStartsWith ['v'] s then s.tail else s

/-- Spec-side predicate: after an optional leading 'v', the string begins with
one-or-more digits, a dot, and one-or-more digits ("contains a leading
major.minor numeric pattern"). -/
def hasLeadingMajorMinor (s : Str) : Prop :=
  ∃ a b r, a.all Char.isDigit ∧ a ≠ [] ∧ b.all Char.isDigit ∧ b ≠ [] ∧
    stripOptV s = a ++ '.' :: (b ++ r)

/-- The `match.group(1)` of `re.match(r'(v\d+\.\d+)', version)` as used by
`DocsJsonUpdater.update_navigation` (docsjson_updater.py lines 66-67):
the major.minor eviction key, or `none` when the regex does not match. -/
def extractMajorMinor? (version : Str) : Option Str :=
  match matchV? version with
  | some (a, b, _) => some ('v' :: (a ++ '.' :: b))
  | none => none

/-! ### Python primitives used by the dropdown sort keys -/

/-- Whitespace accepted by Python's `int(str)` / `str.strip()`. -/
def isPySpace (c : Char) : Bool :=
  c = ' ' || c = '\t' || c = '\n' || c = '\r' || c = '\x0b' || c = '\x0c'

/-- Strip whitespace from both ends, as Python `int()` does to its argument. -/
def pyStripWs (s : Str) : Str :=
  ((s.dropWhile isPySpace).reverse.dropWhile isPySpace).reverse

/-- Numeric value of an ASCII digit run. -/
def digitsToInt (ds : Str) : Int :=
  ds.foldl (fun acc c => acc * 10 + Int.ofNat (c.toNat - 48)) 0

/-- Digit run continuation for Python `int()`: digits with single underscores
allowed between digits only. -/
def digitsRest : Str → Option Str
  | [] => some []
  | '_' :: rest =>
    match rest with
    | c :: r2 => if c.isDigit then (digitsRest r2).map (c :: ·) else none
    | [] => none
  | c :: rest => if c.isDigit then (digitsRest rest).map (c :: ·) else none

/-- A nonempty digit run (underscore grouping allowed), for Python `int()`. -/
def parseDigitsAllowU : Str → Option Str
  | [] => none
  | c :: rest => if c.isDigit then (digitsRest rest).map (c :: ·) else none

/-- Python `int(s)` on ASCII input: optional surrounding whitespace, optional
sign, then digits (with underscore grouping).  `none` models `ValueError`. -/
def pyInt (s : Str) : Option Int :=
  let t := pyStripWs s
  match t with
  | '+' :: rest => (parseDigitsAllowU rest).map digitsToInt
  | '-' :: rest => (parseDigitsAllowU rest).map (fun ds => - digitsToInt ds)
  | _ => (parseDigitsAllowU t).map digitsToInt

/-- Python `s.split('.')`: always nonempty, `"".split('.') == ['']`. -/
def splitOnDot : Str → List Str
  | [] => [[]]
  | '.' :: rest => [] :: splitOnDot rest
  | c :: rest =>
    match splitOnDot rest with
    | [] => [[c]]
    | g :: gs => (c :: g) :: gs

/-! ### Dropdown sort keys (DocsJsonUpdater._sort_dropdowns,
src/doctools/mintlifier/docsjson_updater.py lines 108-138) -/

/-- The sort key produced by the inner `parse_version` of `_sort_dropdowns`:
`(float('inf'),)` for "latest" (modelled by `latest`), else the integer tuple
from splitting on '.', with `(0,)` when any component fails to parse. -/
inductive VKey where
  | latest : VKey
  | ver (parts : List Int) : VKey
deriving DecidableEq

/-- Python sequence `<=` (used for both tuples of ints and strings):
lexicographic by `<` on elements, a proper prefix comparing below. -/
def lexLe {β : Type} [LinearOrder β] :
    List β → List β → Bool
  | [], _ => true
  | _ :: _, [] => false
  | a :: as, b :: bs => if a < b then true else if b < a then false else lexLe as bs

/-- Python tuple `<=` on integer tuples. -/
abbrev lexLeInt : List Int → List Int → Bool := lexLe

/-- Python `<=` on sort keys: `(float('inf'),)` compares above every integer
tuple. -/
def vkeyLe : VKey → VKey → Bool
  | _, .latest => true
  | .latest, .ver _ => false
  | .ver xs, .ver ys => lexLeInt xs ys

/-- Embeds the inner `parse_version` of `_sort_dropdowns`
(docsjson_updater.py lines 117-135), applied to a dropdown's key string. -/
def dropdownSortKey (version : Str) : VKey :=
  if version = ("latest").data then .latest
  else
    let v := if pyStartsWith ['v'] version then version.tail else version
    match (splitOnDot v).mapM pyInt with
    | some parts => .ver parts
    | none => .ver [0]

/-! ### Navigation data model (docs.json manifests) -/

mutual
/-- An entry of a group's `pages` array: a page-path string or a nested
group object. -/
inductive PageEntry where
  | path (p : Str) : PageEntry
  | sub (g : NavGroup) : PageEntry

/-- A navigation group object: `{group: ..., icon: ..., pages: [...]}`. -/
inductive NavGroup where
  | mk (name : Str) (icon : Option Str) (pages : List PageEntry) : NavGroup
end

/-- A version dropdown: `{dropdown: key, icon: ..., groups: [...]}`. -/
structure Dropdown where
  dropdown : Str
  icon : Option Str
  groups : List NavGroup

/-- A navigation tab: `{tab: name, href?: ..., dropdowns?: [...], groups: [...]}`.
`dropdowns = none` models the absence of the `dropdowns` key. -/
structure Tab where
  tab : Str
  href : Option Str
  dropdowns : Option (List Dropdown)
  groups : List NavGroup

/-- A docs.json manifest; `navigation = none` models a document without
`navigation`/`navigation.tabs` keys. -/
structure Manifest where
  navigation : Option (List Tab)

/-- Embeds `find_sdk_tab` (src/doctools/deploy.py lines 21-26, and the inner
`find_sdk_tab` of `merge_docs_json` in deploy_docs_stage.py lines 58-63). -/
def find_sdk_tab (m : Manifest) : Option Tab :=
  match m.navigation with
  | some tabs => tabs.find? (fun t => t.tab == ("Pixeltable SDK").data)
  | none => none

/-- A dropdown with only its key populated (icons and groups empty), for
concrete test inputs. -/
def mkDropdown (k : Str) : Dropdown := ⟨k, none, []⟩

/-- An SDK tab holding the given dropdown list. -/
def mkSdkTabD (dds : List Dropdown) : Tab := ⟨("Pixeltable SDK").data, none, some dds, []⟩

/-- A manifest with the given tab list. -/
def mkManifest (tabs : List Tab) : Manifest := ⟨some tabs⟩

/-- The dropdown keys of a manifest's SDK tab (empty when absent). -/
def sdkDropdownKeys (m : Manifest) : List Str :=
  match find_sdk_tab m with
  | some t => (t.dropdowns.getD []).map Dropdown.dropdown
  | none => []

/-! ### The dropdown-sorting orders that appear in the code -/

/-- Python string `<=`: code-point lexicographic, used by `merge_docs_json`
(deploy_docs_stage.py lines 88-93) via `key=lambda d: d.get('dropdown', '')`,
`reverse=True`. -/
abbrev strLe : Str → Str → Bool := lexLe

/-- `d` sorts no later than `e` under `merge_docs_json`'s sort:
descending raw key string. -/
def mergeStrDesc (d e : Dropdown) : Prop := strLe e.dropdown d.dropdown = true

instance : DecidableRel mergeStrDesc := fun d e =>
  inferInstanceAs (Decidable (strLe e.dropdown d.dropdown = true))

/-- The sort of `merge_docs_json` lines 88-93 (Python `sorted` is stable;
insertion sort with a reflexive-on-ties relation models it exactly). -/
def sortDropdownsByName (l : List Dropdown) : List Dropdown :=
  List.insertionSort mergeStrDesc l

/-- `d` sorts no later than `e` under `_sort_dropdowns`: descending parsed
version key. -/
def dropdownVerGE (d e : Dropdown) : Prop :=
  vkeyLe (dropdownSortKey e.dropdown) (dropdownSortKey d.dropdown) = true

instance : DecidableRel dropdownVerGE := fun d e =>
  inferInstanceAs
    (Decidable (vkeyLe (dropdownSortKey e.dropdown) (dropdownSortKey d.dropdown) = true))

/-- Embeds `DocsJsonUpdater._sort_dropdowns` (docsjson_updater.py lines
108-138): stable sort by parsed version key, newest first. -/
def sortDropdowns (l : List Dropdown) : List Dropdown :=
  List.insertionSort dropdownVerGE l

/-! ### merge_docs_json (src/doctools/deploy/deploy_docs_stage.py lines 33-101) -/

/-- One Python dict assignment `versions[key] = dropdown`: replace in place
if the key is present (dicts preserve insertion position), else append. -/
def dictInsert (l : List Dropdown) (d : Dropdown) : List Dropdown :=
  if l.any (fun e => e.dropdown == d.dropdown)
  then l.map (fun e => if e.dropdown == d.dropdown then d else e)
  else l ++ [d]

/-- The `versions` dict of `merge_docs_json` lines 82-86: production
dropdowns inserted first, generated dropdowns second (winning collisions). -/
def buildVersions (prodDds genDds : List Dropdown) : List Dropdown :=
  (prodDds ++ genDds).foldl dictInsert []

/-- The replace-first-SDK-tab loop of `merge_docs_json` lines 71-74. -/
def replaceSdkTab (tabs : List Tab) (newTab : Tab) : List Tab :=
  match tabs with
  | [] => []
  | t :: ts =>
    if t.tab == ("Pixeltable SDK").data then newTab :: ts
    else t :: replaceSdkTab ts newTab

/-- The assign-merged-dropdowns loop of `merge_docs_json` lines 96-99. -/
def setSdkDropdowns (tabs : List Tab) (dds : List Dropdown) : List Tab :=
  match tabs with
  | [] => []
  | t :: ts =>
    if t.tab == ("Pixeltable SDK").data then ⟨t.tab, t.href, some dds, t.groups⟩ :: ts
    else t :: setSdkDropdowns ts dds

/-- Embeds `merge_docs_json` (deploy_docs_stage.py lines 33-101): start from
the local manifest, swap in the generated SDK tab, union production and
generated dropdowns keyed by name, and sort by descending raw key string. -/
def merge_docs_json (production localDocs generated : Manifest) : Manifest :=
  match find_sdk_tab generated, find_sdk_tab localDocs with
  | some genTab, some _ =>
    match localDocs.navigation with
    | none => localDocs
    | some ts =>
      let tabs0 := replaceSdkTab ts genTab
      match find_sdk_tab production with
      | some prodTab =>
        match prodTab.dropdowns with
        | some prodDds =>
          let genDds := genTab.dropdowns.getD []
          ⟨some (setSdkDropdowns tabs0 (sortDropdownsByName (buildVersions prodDds genDds)))⟩
        | none => ⟨some tabs0⟩
      | none => ⟨some tabs0⟩
  | _, _ => localDocs

/-! ### DocsJsonUpdater.update_navigation dropdown merge
(src/doctools/mintlifier/docsjson_updater.py lines 60-88) -/

/-- Embeds the dropdown branch of `update_navigation`: given the existing
tab's dropdown list and the (single) new version dropdown, evict every
existing dropdown whose key starts with the new key's major.minor value
(when one can be extracted), append the new dropdown, and sort with
`_sort_dropdowns`. -/
def updateDropdowns (existing : List Dropdown) (nd : Dropdown) : List Dropdown :=
  let kept :=
    match extractMajorMinor? nd.dropdown with
    | some p => existing.filter (fun d => !(pyStartsWith p d.dropdown))
    | none => existing
  sortDropdowns (kept ++ [nd])

/-! ### merge_sdk_dropdowns (src/doctools/deploy.py lines 29-48) -/

/-- A Python exception relevant here. -/
inductive PyError where
  | attributeError (msg : Str) : PyError

/-- The attribute names defined in the body of `class DocsJsonUpdater`
(src/doctools/mintlifier/docsjson_updater.py): its class namespace, against
which `DocsJsonUpdater.<name>` is resolved. -/
def docsJsonUpdaterAttrs : List Str :=
  [("__init__").data, ("load").data, ("update_navigation").data, ("save").data,
   ("_sort_dropdowns").data, ("validate_structure").data]

/-- Embeds `merge_sdk_dropdowns` (src/doctools/deploy.py lines 29-48): find
the SDK tab in each manifest, mark existing dropdowns as archived, union the
dropdowns keyed by name (new wins), then evaluate
`DocsJsonUpdater.sort_dropdowns(...)`, whose attribute lookup is modelled
against the class namespace.  The returned list is the one that would be
assigned to the new SDK tab's `dropdowns`. -/
def merge_sdk_dropdowns (existingDocs newDocs : Manifest) : Except PyError (List Dropdown) :=
  match find_sdk_tab existingDocs, find_sdk_tab newDocs with
  | some exT, some newT =>
    let exDds := (exT.dropdowns.getD []).map
      (fun d => Dropdown.mk d.dropdown (some (("archive").data)) d.groups)
    let newDds := newT.dropdowns.getD []
    let merged := (exDds ++ newDds).foldl dictInsert []
    if (("sort_dropdowns").data) ∈ docsJsonUpdaterAttrs
    then .ok (sortDropdowns merged)
    else .error (.attributeError
      (("type object DocsJsonUpdater has no attribute sort_dropdowns").data))
  | _, _ => .error (.attributeError (("NoneType object has no attribute get").data))

/-! ### Python str.replace and the recursive path rewriter
(src/doctools/deploy.py lines 51-59) -/

/-- Python `s.replace('', new)`: `new` is inserted around every character. -/
def interleave (new : Str) : Str → Str
  | [] => new
  | c :: cs => new ++ c :: interleave new cs

/-- Scanner for Python `s.replace(old, new)` with nonempty `old = o :: os`:
replace each leftmost non-overlapping occurrence.  The extra `Nat` argument
is structural-recursion fuel, initially the string's length; every step
consumes at least one character and one unit of fuel, so under the invariant
`s.length ≤ fuel` the `(0, _ :: _)` arm is never reached and the result does
not depend on the fuel. -/
def replaceFuel (o : Char) (os new : Str) : Nat → Str → Str
  | _, [] => []
  | 0, s => s
  | fuel + 1, c :: cs =>
    if (o :: os).isPrefixOf (c :: cs)
    then new ++ replaceFuel o os new fuel (cs.drop os.length)
    else c :: replaceFuel o os new fuel cs

/-- Python `s.replace(old, new)`. -/
def pyReplace (old new s : Str) : Str :=
  match old with
  | [] => interleave new s
  | o :: os => replaceFuel o os new s.length s

mutual
/-- `replace_paths` on one entry of a `pages` array (deploy.py lines 54-59):
recurse into dict entries, `str.replace` on string entries. -/
def replacePathsEntry (old new : Str) : PageEntry → PageEntry
  | .path s => .path (pyReplace old new s)
  | .sub g => .sub (replacePaths old new g)

/-- Embeds `replace_paths` (src/doctools/deploy.py lines 51-59): rewrite
every entry of the group's `pages`, leaving the other keys alone. -/
def replacePaths (old new : Str) : NavGroup → NavGroup
  | .mk nm ic pages => .mk nm ic (replacePathsList old new pages)

/-- The `for i in range(len(pages))` loop of `replace_paths`. -/
def replacePathsList (old new : Str) : List PageEntry → List PageEntry
  | [] => []
  | e :: es => replacePathsEntry old new e :: replacePathsList old new es
end

mutual
/-- All page-path string leaves of an entry, in order. -/
def pageLeavesEntry : PageEntry → List Str
  | .path s => [s]
  | .sub g => pageLeaves g

/-- All page-path string leaves of a group, in order. -/
def pageLeaves : NavGroup → List Str
  | .mk _ _ pages => pageLeavesList pages

/-- All page-path string leaves of a `pages` array, in order. -/
def pageLeavesList : List PageEntry → List Str
  | [] => []
  | e :: es => pageLeavesEntry e ++ pageLeavesList es
end

mutual
/-- All `group` titles in an entry (non-page data), in order. -/
def groupTitlesEntry : PageEntry → List Str
  | .path _ => []
  | .sub g => groupTitles g

/-- All `group` titles in a group and its nested groups, in order. -/
def groupTitles : NavGroup → List Str
  | .mk nm _ pages => nm :: groupTitlesList pages

/-- All `group` titles under a `pages` array, in order. -/
def groupTitlesList : List PageEntry → List Str
  | [] => []
  | e :: es => groupTitlesEntry e ++ groupTitlesList es
end

mutual
/-- All `icon` values in an entry (non-page data), in order. -/
def groupIconsEntry : PageEntry → List (Option Str)
  | .path _ => []
  | .sub g => groupIcons g

/-- All `icon` values in a group and its nested groups, in order. -/
def groupIcons : NavGroup → List (Option Str)
  | .mk _ ic pages => ic :: groupIconsList pages

/-- All `icon` values under a `pages` array, in order. -/
def groupIconsList : List PageEntry → List (Option Str)
  | [] => []
  | e :: es => groupIconsEntry e ++ groupIconsList es
end

mutual
/-- Spec-side rewriter (refinement target), following the spec's words:
"substitute an old path-prefix for a new one in every string leaf,
recursively", leaving non-page keys untouched — on one entry. -/
def mapLeavesEntry (f : Str → Str) : PageEntry → PageEntry
  | .path s => .path (f s)
  | .sub g => .sub (mapLeaves f g)

/-- Spec-side rewriter on a group: apply `f` to every string leaf, keep
`group` and `icon` unchanged. -/
def mapLeaves (f : Str → Str) : NavGroup → NavGroup
  | .mk nm ic pages => .mk nm ic (mapLeavesList f pages)

/-- Spec-side rewriter on a `pages` array. -/
def mapLeavesList (f : Str → Str) : List PageEntry → List PageEntry
  | [] => []
  | e :: es => mapLeavesEntry f e :: mapLeavesList f es
end

/-! ### Deployed file trees (path-set model of the copy/remove steps) -/

/-- Path `p` lies in the subtree rooted at `d` (is `d` or is under `d/`). -/
def underDir (d p : Str) : Bool := (p == d) || pyStartsWith (d ++ ['/']) p

/-- `shutil.rmtree(d)` on a path set: drop the subtree rooted at `d`. -/
def rmtree (d : Str) (fs : List Str) : List Str := fs.filter (fun p => !(underDir d p))

/-- The first component of a relative path. -/
def topComponent (p : Str) : Str := p.takeWhile (fun c => !(c == '/'))

/-- Embeds the tree effect of `deploy_to_stage` (deploy_docs_stage.py lines
469-484) on path sets: first `sdk/latest` is removed from the output (lines
470-473, "local preview only"), then each top-level output item replaces the
repository item of the same name (lines 477-484). -/
def deploy_to_stage_tree (repo output : List Str) : List Str :=
  let output2 := rmtree (("sdk/latest").data) output
  repo.filter (fun p => !((output2.map topComponent).contains (topComponent p))) ++ output2

/-- Embeds the sdk copy of `deploy` (src/doctools/deploy.py lines 152-160):
the generated `sdk/latest` subtree is copied into the docs repository twice,
once as `sdk/latest` and once as `sdk/<display_version>` — for every branch,
dev included. -/
def deployCopySdkPaths (latestRel : List Str) (displayVersion : Str) : List Str :=
  (latestRel.map (fun p => (("sdk/latest/").data) ++ p)) ++
    (latestRel.map (fun p => (("sdk/").data) ++ displayVersion ++ '/' :: p))

/-- Embeds the docs.json step of `deploy` (src/doctools/deploy.py lines
162-168): assert the generated SDK tab holds exactly the "latest" dropdown,
deep-copy it under the display version with `sdk/latest/` paths rewritten,
and append the copy after the original; `none` models the AssertionError. -/
def deployAppendVersionDropdown (sdkDds : List Dropdown) (displayVersion : Str) :
    Option (List Dropdown) :=
  match sdkDds with
  | [d0] =>
    if d0.dropdown == ("latest").data then
      some (sdkDds ++ [Dropdown.mk displayVersion d0.icon
        (d0.groups.map (replacePaths (("sdk/latest/").data)
          ((("sdk/").data) ++ displayVersion ++ ['/'])))])
    else none
  | _ => none

/-! ### Changelog heading demotion
(src/doctools/changelog/fetch_releases.py lines 194-199) -/

/-- Embeds the release-body heading rewrite of `generate_changelog_to_dir`:
`body.replace('\n## ', '\n#### ')`, plus the start-of-body case. -/
def demoteHeadings (body : Str) : Str :=
  let b1 := pyReplace (("\n## ").data) (("\n#### ").data) body
  if pyStartsWith (("## ").data) b1 then (("#### ").data) ++ b1.drop 3 else b1

/-! ### Content generators as state transformers
(fetch_releases.py lines 111-215, fetch_contributors.py lines 51-139) -/

/-- An output directory: `none` when absent, else the file names present. -/
abbrev DirState := Option (List Str)

/-- Embeds `generate_changelog_to_dir` (fetch_releases.py lines 111-215) as
a transformer of its output directory: the fetch happens first (line 125)
and a failure re-raises before anything is touched; an empty release list
returns early (lines 129-131); otherwise the directory is deleted, recreated
and the single consolidated file written (lines 135-209). -/
def generate_changelog_to_dir (fetched : Except Str (List Str)) (dir : DirState) :
    Except Str Unit × DirState :=
  match fetched with
  | .error e => (.error ((("Failed to fetch releases: ").data) ++ e), dir)
  | .ok [] => (.ok (), dir)
  | .ok (_ :: _) => (.ok (), some [("changelog.mdx").data])

/-- Embeds `generate_contributors_page` (fetch_contributors.py lines 51-139)
as a transformer of its output directory: fetch first, failure re-raises
untouched; empty list returns early; otherwise
`output_dir.mkdir(parents=True, exist_ok=True)` keeps whatever is there and
`contributors.mdx` is written (overwritten) in place. -/
def generate_contributors_page (fetched : Except Str (List Str)) (dir : DirState) :
    Except Str Unit × DirState :=
  match fetched with
  | .error e => (.error ((("Failed to fetch contributors: ").data) ++ e), dir)
  | .ok [] => (.ok (), dir)
  | .ok (_ :: _) =>
    let files := dir.getD []
    (.ok (), some ((files.filter (fun f => !(f == ("contributors.mdx").data))) ++
      [("contributors.mdx").data]))

/-! ### Signature formatting
(src/pixeltable_doctools/mintlifier/page_base.py lines 112-177, 524-543, and
FunctionSectionGenerator._document_signature, section_function.py lines
112-144) -/

/-- ASCII single quote (kept out of character-literal syntax). -/
def sqChar : Char := Char.ofNat 39

/-- ASCII double quote. -/
def dqChar : Char := Char.ofNat 34

/-- ASCII backslash. -/
def bsChar : Char := Char.ofNat 92

/-- ASCII left curly bracket. -/
def lbChar : Char := Char.ofNat 123

/-- ASCII right curly bracket. -/
def rbChar : Char := Char.ofNat 125

/-- The scan loop of `_find_matching_paren` (page_base.py lines 100-110):
`i` is the absolute index of the head character. -/
def scanParen (depth : Int) (i : Nat) : Str → Int
  | [] => -1
  | c :: cs =>
    if c = '(' then scanParen (depth + 1) (i + 1) cs
    else if c = ')' then
      (if depth - 1 = 0 then Int.ofNat i else scanParen (depth - 1) (i + 1) cs)
    else scanParen depth (i + 1) cs

/-- Embeds `_find_matching_paren` (page_base.py lines 88-110): position of
the closing paren matching the opening paren at `openPos`, or -1. -/
def find_matching_paren (s : Str) (openPos : Nat) : Int :=
  match s.drop openPos with
  | [] => -1
  | c :: cs => if c = '(' then scanParen 0 openPos (c :: cs) else -1

/-- `s.index(c)` when `c` is known to occur: index of first occurrence. -/
def pyIndexOf (c : Char) (s : Str) : Nat := (s.takeWhile (fun x => !(x == c))).length

/-- `s.rindex(')')`: index of the last closing paren, `none` when absent
(Python raises ValueError). -/
def pyRIndexParen? (s : Str) : Option Nat :=
  if (')') ∈ s then some (s.length - 1 - pyIndexOf ')' s.reverse) else none

/-- Python slice `s[a:b]`. -/
def pySlice (s : Str) (a b : Nat) : Str := (s.drop a).take (b - a)

/-- The character loop of `_split_params` (page_base.py lines 147-177):
`prev` is the previously scanned character (for the backslash check),
`acc`/`cur` the collected parameters and current chunk, with bracket depth
and string state carried through. -/
def splitParamsGo (prev : Option Char) (acc : List Str) (cur : Str) (depth : Int)
    (inString : Bool) (stringChar : Option Char) : Str → List Str
  | [] => if cur ≠ [] then acc ++ [pyStripWs cur] else acc
  | c :: cs =>
    if !inString then
      if c = dqChar ∨ c = sqChar then
        splitParamsGo (some c) acc (cur ++ [c]) depth true (some c) cs
      else if c = '(' ∨ c = '[' ∨ c = lbChar then
        splitParamsGo (some c) acc (cur ++ [c]) (depth + 1) inString stringChar cs
      else if c = ')' ∨ c = ']' ∨ c = rbChar then
        splitParamsGo (some c) acc (cur ++ [c]) (depth - 1) inString stringChar cs
      else if c = ',' ∧ depth = 0 then
        splitParamsGo (some c) (acc ++ [pyStripWs cur]) [] depth inString stringChar cs
      else
        splitParamsGo (some c) acc (cur ++ [c]) depth inString stringChar cs
    else
      if stringChar = some c ∧ prev ≠ some bsChar then
        splitParamsGo (some c) acc (cur ++ [c]) depth false none cs
      else
        splitParamsGo (some c) acc (cur ++ [c]) depth inString stringChar cs

/-- Embeds `_split_params` (page_base.py lines 147-177): split a parameter
list on top-level commas, respecting brackets and string literals. -/
def split_params (s : Str) : List Str :=
  splitParamsGo none [] [] 0 false none s

/-- `sep.join(l)`. -/
def intercalateStr (sep : Str) : List Str → Str
  | [] => []
  | [p] => p
  | p :: ps => p ++ sep ++ intercalateStr sep ps

/-- The `",\n    ".join(param.strip() for param in params)` of
`_format_signature_manual` line 144. -/
def joinParams (ps : List Str) : Str :=
  intercalateStr ((",\n    ").data) (ps.map pyStripWs)

/-- Embeds `_format_signature_manual` (page_base.py lines 112-145): slice out
the top-level parameter list, split it, and render zero/one parameters on
one line and two-or-more one per indented line.  `Except.error` models the
ValueError of `rindex` when no closing paren exists. -/
def format_signature_manual (sig : Str) : Except Str Str :=
  if ('(') ∈ sig then
    let openP := pyIndexOf '(' sig
    let closeRaw := find_matching_paren sig openP
    match (if closeRaw = -1 then pyRIndexParen? sig else some closeRaw.toNat) with
    | none => .error ("substring not found").data
    | some closeP =>
      let paramsStr := pyStripWs (pySlice sig (openP + 1) closeP)
      let afterClose := pyStripWs (sig.drop (closeP + 1))
      if paramsStr = [] then .ok ('(' :: ')' :: afterClose)
      else
        match split_params paramsStr with
        | [] => .ok ('(' :: ')' :: afterClose)
        | [p] => .ok ('(' :: (p ++ ')' :: afterClose))
        | ps =>
          .ok (('(' :: '\n' :: ("    ").data) ++ joinParams ps ++ ('\n' :: ')' :: afterClose))
  else .ok sig

/-- The quoted-annotation scan shared by the four `re.sub` passes of
`_remove_type_quotes` (page_base.py lines 179-196): after the `:` or `->`,
skip whitespace; a quote `q`, a nonempty run without `q`, and a closing `q`
must follow.  Returns the quoted content and the rest of the string. -/
def tryQuoteAfterWs (q : Char) (cs : Str) : Option (Str × Str) :=
  let cs2 := cs.dropWhile isPySpace
  match cs2 with
  | c :: cs3 =>
    if c = q then
      let content := cs3.takeWhile (fun x => !(x == q))
      let rest := cs3.dropWhile (fun x => !(x == q))
      match rest with
      | _ :: rest2 => if content ≠ [] then some (content, rest2) else none
      | [] => none
    else none
  | [] => none

/-- One `re.sub(r':\s*q([^q]+)q', r": \1", s)` pass.  Fuel is the string
length; a successful match consumes at least one character per fuel unit. -/
def subColonQuote (q : Char) : Nat → Str → Str
  | _, [] => []
  | 0, s => s
  | fuel + 1, c :: cs =>
    if c = ':' then
      match tryQuoteAfterWs q cs with
      | some (content, rest) => ':' :: ' ' :: (content ++ subColonQuote q fuel rest)
      | none => c :: subColonQuote q fuel cs
    else c :: subColonQuote q fuel cs

/-- One `re.sub(r'->\s*q([^q]+)q', r"-> \1", s)` pass. -/
def subArrowQuote (q : Char) : Nat → Str → Str
  | _, [] => []
  | 0, s => s
  | fuel + 1, c :: cs =>
    if c = '-' then
      match cs with
      | c2 :: cs2 =>
        if c2 = '>' then
          match tryQuoteAfterWs q cs2 with
          | some (content, rest) => '-' :: '>' :: ' ' :: (content ++ subArrowQuote q fuel rest)
          | none => c :: subArrowQuote q fuel cs
        else c :: subArrowQuote q fuel cs
      | [] => c :: subArrowQuote q fuel cs
    else c :: subArrowQuote q fuel cs

/-- Embeds `_remove_type_quotes` (page_base.py lines 179-196): the four
substitution passes in source order. -/
def remove_type_quotes (s : Str) : Str :=
  let s1 := subColonQuote dqChar s.length s
  let s2 := subColonQuote sqChar s1.length s1
  let s3 := subArrowQuote dqChar s2.length s2
  subArrowQuote sqChar s3.length s3

/-- Embeds `_format_signature_with_ruff` (page_base.py lines 37-46): strip
annotation quotes, then format manually. -/
def format_signature_with_ruff (sig : Str) : Except Str Str :=
  format_signature_manual (remove_type_quotes sig)

/-- Python `str.isalnum` on ASCII. -/
def pyIsAlnum (s : Str) : Bool := s ≠ [] && s.all Char.isAlphanum

/-- Embeds `_format_signature` (page_base.py lines 524-543): peel a leading
function name when present, format the rest, and re-attach the name when the
formatted text starts with a paren. -/
def format_signature (sig : Str) : Except Str Str :=
  if ('(') ∈ sig then
    let parenIdx := pyIndexOf '(' sig
    if parenIdx > 0 ∧
        pyIsAlnum (((sig.take parenIdx).filter (fun c => !(c == '_'))).filter
          (fun c => !(c == '.'))) = true then
      let funcName := sig.take parenIdx
      let sigPart := sig.drop parenIdx
      match format_signature_with_ruff sigPart with
      | .ok f => if pyStartsWith ['('] f then .ok (funcName ++ f) else .ok f
      | .error e => .error e
    else format_signature_with_ruff sig
  else format_signature_with_ruff sig

/-- The `f"{func_name}{formatted_sig}"` signature line written by
`FunctionSectionGenerator._document_signature` (section_function.py lines
139-141) for a standard function. -/
def document_signature_line (funcName sig : Str) : Except Str Str :=
  match format_signature sig with
  | .ok f => .ok (funcName ++ f)
  | .error e => .error e

/-- Split a rendered string into its lines (inverse view of '\n' joins). -/
def splitLines : Str → List Str
  | [] => [[]]
  | c :: rest =>
    if c = '\n' then [] :: splitLines rest
    else
      match splitLines rest with
      | [] => [[c]]
      | g :: gs => (c :: g) :: gs

/-- Spec-side description of the multi-parameter body: one indented line per
parameter, a trailing comma on every line except the last, then the closing
paren with the trailing text. -/
def paramLines : List Str → Str → List Str
  | [], after => [')' :: after]
  | [p], after => [("    ").data ++ p, ')' :: after]
  | p :: ps, after => ((("    ").data ++ p) ++ [',']) :: paramLines ps after

/-! #### take/drop-while helper lemmas -/

theorem takeWhile_of_all {p : Char → Bool} :
    ∀ (a : Str), a.all p = true → a.takeWhile p = a ∧ a.dropWhile p = []
  | [], _ => ⟨rfl, rfl⟩
  | c :: cs, h => by
    have hc : p c = true := by
      have := List.all_cons .. ▸ h
      exact (Bool.and_eq_true _ _ ▸ this).1
    have ih := takeWhile_of_all cs (by
      have := List.all_cons .. ▸ h
      exact (Bool.and_eq_true _ _ ▸ this).2)
    constructor
    · simp [List.takeWhile_cons, hc, ih.1]
    · simp [List.dropWhile_cons, hc, ih.2]

theorem takeWhile_append_of_all {p : Char → Bool} :
    ∀ (a : Str) {c : Char} (r : Str), a.all p = true → p c = false →
      ((a ++ c :: r).takeWhile p = a ∧ (a ++ c :: r).dropWhile p = c :: r)
  | [], c, r, _, hc => by
    constructor
    · simp [List.takeWhile_cons, hc]
    · simp [List.dropWhile_cons, hc]
  | d :: a, c, r, h, hc => by
    have hd : p d = true := by
      have := List.all_cons .. ▸ h
      exact (Bool.and_eq_true _ _ ▸ this).1
    have ih := takeWhile_append_of_all a r (by
      have := List.all_cons .. ▸ h
      exact (Bool.and_eq_true _ _ ▸ this).2) hc
    constructor
    · simp [List.takeWhile_cons, hd, ih.1]
    · simp [List.dropWhile_cons, hd, ih.2]

/-- Soundness of the major.minor matcher: a successful match decomposes the
input into nonempty digit runs around a dot. -/
theorem matchVMajorMinor?_sound {cs a b r : Str}
    (h : matchVMajorMinor? cs = some (a, b, r)) :
    cs = a ++ '.' :: (b ++ r) ∧ a.all Char.isDigit = true ∧ a ≠ [] ∧
      b.all Char.isDigit = true ∧ b ≠ [] := by
  simp only [matchVMajorMinor?] at h
  split at h
  · exact absurd h (by simp)
  · rename_i ha
    split at h
    · rename_i r2 hdrop
      split at h
      · exact absurd h (by simp)
      · rename_i hb
        simp only [Option.some.injEq, Prod.mk.injEq] at h
        obtain ⟨rfl, rfl, rfl⟩ := h
        refine ⟨?_, ?_, ?_, ?_, ?_⟩
        · have h1 : cs = cs.takeWhile Char.isDigit ++ ('.' :: r2) := by
            rw [← hdrop]
            exact (List.takeWhile_append_dropWhile (p := Char.isDigit) (l := cs)).symm
          have h2 : r2 = r2.takeWhile Char.isDigit ++ r2.dropWhile Char.isDigit :=
            (List.takeWhile_append_dropWhile (p := Char.isDigit) (l := r2)).symm
          conv_lhs => rw [h1, h2]
        · exact List.all_eq_true.2 fun c hc => List.mem_takeWhile_imp hc
        · intro hnil; rw [hnil] at ha; exact ha rfl
        · exact List.all_eq_true.2 fun c hc => List.mem_takeWhile_imp hc
        · intro hnil; rw [hnil] at hb; exact hb rfl
    · exact absurd h (by simp)

theorem pyStartsWithV_cons (c : Char) (cs : Str) :
    pyStartsWith ['v'] (c :: cs) = ('v' == c) := by
  simp [pyStartsWith, List.isPrefixOf]

theorem pyNormV_eq (s : Str) : pyNormV s = 'v' :: stripOptV s := by
  cases s with
  | nil => rfl
  | cons c cs =>
    by_cases hc : c = 'v'
    · subst hc
      simp [pyNormV, stripOptV, pyStartsWithV_cons]
    · have h2 : ('v' == c) = false := beq_eq_false_iff_ne.mpr (Ne.symm hc)
      simp [pyNormV, stripOptV, pyStartsWithV_cons, h2]

theorem pyNormV_of_digit_head (c : Char) (cs : Str) (hc : c.isDigit = true) :
    pyNormV (c :: cs) = 'v' :: c :: cs := by
  have hne : ¬ c = 'v' := fun h => by subst h; exact absurd hc (by decide)
  have h2 : ('v' == c) = false := beq_eq_false_iff_ne.mpr (Ne.symm hne)
  simp [pyNormV, pyStartsWithV_cons, h2]

theorem matchV?_cons_v (rest : Str) : matchV? ('v' :: rest) = matchVMajorMinor? rest := by
  simp [matchV?, pyStartsWithV_cons]

/-- Completeness of the matcher on inputs of the claimed shape. -/
theorem matchVMajorMinor?_complete_form (a b t : Str)
    (ha : a.all Char.isDigit = true) (ha0 : a ≠ [])
    (hb : b.all Char.isDigit = true) (hb0 : b ≠ [])
    (ht : t = [] ∨ ∃ c, c.all Char.isDigit = true ∧ c ≠ [] ∧ t = '.' :: c) :
    matchVMajorMinor? (a ++ '.' :: (b ++ t)) = some (a, b, t) := by
  have hdot : Char.isDigit '.' = false := by decide
  obtain ⟨h1, h2⟩ := takeWhile_append_of_all a (b ++ t) ha hdot
  have hbt1 : (b ++ t).takeWhile Char.isDigit = b := by
    rcases ht with rfl | ⟨c, hc, hc0, rfl⟩
    · simpa using (takeWhile_of_all b hb).1
    · exact (takeWhile_append_of_all b c hb hdot).1
  have hbt2 : (b ++ t).dropWhile Char.isDigit = t := by
    rcases ht with rfl | ⟨c, hc, hc0, rfl⟩
    · simpa using (takeWhile_of_all b hb).2
    · exact (takeWhile_append_of_all b c hb hdot).2
  have haE : a.isEmpty = false := by
    cases a
    · exact absurd rfl ha0
    · rfl
  have hbE : b.isEmpty = false := by
    cases b
    · exact absurd rfl hb0
    · rfl
  simp only [matchVMajorMinor?, h1, h2, hbt1, hbt2, haE, Bool.false_eq_true, if_false, hbE]

/-- C4: for every version string of the form `v?\d+\.\d+(\.\d+)?`,
`parse_version` returns the input normalised to start with 'v' together with
the first two numeric components prefixed with 'v'; for every string not
containing a leading major.minor numeric pattern it fails with the invalid-
version error and returns nothing. -/
theorem claim_C4 :
    (∀ (hasV : Bool) (a b t : Str),
      a.all Char.isDigit = true → a ≠ [] → b.all Char.isDigit = true → b ≠ [] →
      (t = [] ∨ ∃ c, c.all Char.isDigit = true ∧ c ≠ [] ∧ t = '.' :: c) →
      parse_version ((if hasV then ['v'] else []) ++ (a ++ '.' :: (b ++ t)))
        = .ok ('v' :: (a ++ '.' :: (b ++ t)), 'v' :: (a ++ '.' :: b))) ∧
    (∀ s : Str, ¬ hasLeadingMajorMinor s → ∃ msg, parse_version s = .error msg) := by
  constructor
  · intro hasV a b t ha ha0 hb hb0 ht
    have hmatch : matchVMajorMinor? (a ++ '.' :: (b ++ t)) = some (a, b, t) :=
      matchVMajorMinor?_complete_form a b t ha ha0 hb hb0 ht
    have hnorm : pyNormV ((if hasV then ['v'] else []) ++ (a ++ '.' :: (b ++ t)))
        = 'v' :: (a ++ '.' :: (b ++ t)) := by
      cases hasV
      · cases a with
        | nil => exact absurd rfl ha0
        | cons c a2 =>
          have hcd : c.isDigit = true := by
            rw [List.all_cons, Bool.and_eq_true] at ha
            exact ha.1
          simpa using pyNormV_of_digit_head c (a2 ++ '.' :: (b ++ t)) hcd
      · have : (['v'] ++ (a ++ '.' :: (b ++ t))) = 'v' :: (a ++ '.' :: (b ++ t)) := rfl
        rw [if_pos rfl, this]
        simp [pyNormV, pyStartsWithV_cons]
    simp only [parse_version, hnorm, matchV?_cons_v, hmatch]
  · intro s h
    cases hm : matchV? (pyNormV s) with
    | none => exact ⟨_, by simp only [parse_version, hm]; rfl⟩
    | some abr =>
      exfalso
      apply h
      obtain ⟨a, ⟨b, r⟩⟩ := abr
      rw [pyNormV_eq s, matchV?_cons_v] at hm
      obtain ⟨hdecomp, ha, ha0, hb, hb0⟩ := matchVMajorMinor?_sound hm
      exact ⟨a, b, r, ha, ha0, hb, hb0, hdecomp⟩

/-- Witness for C4 at the concrete inputs "0.4.17" (success) and "abc"
(failure). -/
theorem claim_C4_witness :
    parse_version ((if false then ['v'] else []) ++ (['0'] ++ '.' :: (['4'] ++ ['.', '1', '7'])))
      = .ok ('v' :: (['0'] ++ '.' :: (['4'] ++ ['.', '1', '7'])), 'v' :: (['0'] ++ '.' :: ['4'])) ∧
    (∃ msg, parse_version ['a', 'b', 'c'] = .error msg) :=
  ⟨claim_C4.1 false ['0'] ['4'] ['.', '1', '7'] (by decide) (by decide) (by decide) (by decide)
      (Or.inr ⟨['1', '7'], by decide, by decide, rfl⟩),
   claim_C4.2 ['a', 'b', 'c'] (fun hL => by
      obtain ⟨a, b, r, ha, ha0, hb, hb0, hdec⟩ := hL
      have hs : stripOptV ['a', 'b', 'c'] = ['a', 'b', 'c'] := by decide
      rw [hs] at hdec
      cases a with
      | nil => exact ha0 rfl
      | cons c a2 =>
        rw [List.cons_append] at hdec
        injection hdec with hh _
        rw [List.all_cons, Bool.and_eq_true] at ha
        rw [← hh] at ha
        exact absurd ha.1 (by decide))⟩

/-! ### Total-preorder facts for the comparison relations -/

theorem lexLe_total {β : Type} [LinearOrder β] :
    ∀ xs ys : List β, lexLe xs ys = true ∨ lexLe ys xs = true
  | [], _ => Or.inl rfl
  | _ :: _, [] => Or.inr rfl
  | x :: xs, y :: ys => by
    rcases lt_trichotomy x y with h | h | h
    · left; simp [lexLe, h]
    · subst h
      rcases lexLe_total xs ys with ih | ih
      · left; simp [lexLe, lt_irrefl, ih]
      · right; simp [lexLe, lt_irrefl, ih]
    · right; simp [lexLe, h]

theorem lexLe_trans {β : Type} [LinearOrder β] :
    ∀ xs ys zs : List β, lexLe xs ys = true → lexLe ys zs = true →
      lexLe xs zs = true
  | [], _, _, _, _ => rfl
  | _ :: _, [], _, h, _ => by simp [lexLe] at h
  | _ :: _, _ :: _, [], _, h2 => by simp [lexLe] at h2
  | x :: xs, y :: ys, z :: zs, h1, h2 => by
    rcases lt_trichotomy x y with hxy | hxy | hxy
    · rcases lt_trichotomy y z with hyz | hyz | hyz
      · simp [lexLe, lt_trans hxy hyz]
      · subst hyz; simp [lexLe, hxy]
      · rw [lexLe, if_neg (asymm hyz), if_pos hyz] at h2
        exact absurd h2 (by simp)
    · subst hxy
      rw [lexLe, if_neg (lt_irrefl x), if_neg (lt_irrefl x)] at h1
      rcases lt_trichotomy x z with hyz | hyz | hyz
      · simp [lexLe, hyz]
      · subst hyz
        rw [lexLe, if_neg (lt_irrefl x), if_neg (lt_irrefl x)] at h2 ⊢
        exact lexLe_trans xs ys zs h1 h2
      · rw [lexLe, if_neg (asymm hyz), if_pos hyz] at h2
        exact absurd h2 (by simp)
    · rw [lexLe, if_neg (asymm hxy), if_pos hxy] at h1
      exact absurd h1 (by simp)

theorem vkeyLe_total : ∀ a b : VKey, vkeyLe a b = true ∨ vkeyLe b a = true
  | .latest, .latest => Or.inl rfl
  | .latest, .ver _ => Or.inr rfl
  | .ver _, .latest => Or.inl rfl
  | .ver xs, .ver ys => lexLe_total xs ys

theorem vkeyLe_latest (a : VKey) : vkeyLe a .latest = true := by
  cases a <;> rfl

theorem vkeyLe_trans :
    ∀ a b c : VKey, vkeyLe a b = true → vkeyLe b c = true → vkeyLe a c = true
  | a, _, .latest, _, _ => vkeyLe_latest a
  | _, .latest, .ver _, _, h2 => by simp [vkeyLe] at h2
  | .latest, .ver _, .ver _, h1, _ => by simp [vkeyLe] at h1
  | .ver _, .ver _, .ver _, h1, h2 => lexLe_trans _ _ _ h1 h2

theorem dropdownVerGE_total : ∀ d e : Dropdown, dropdownVerGE d e ∨ dropdownVerGE e d :=
  fun d e => vkeyLe_total (dropdownSortKey e.dropdown) (dropdownSortKey d.dropdown)

theorem dropdownVerGE_trans :
    ∀ d e f : Dropdown, dropdownVerGE d e → dropdownVerGE e f → dropdownVerGE d f :=
  fun _ _ _ h1 h2 => vkeyLe_trans _ _ _ h2 h1

theorem mergeStrDesc_total : ∀ d e : Dropdown, mergeStrDesc d e ∨ mergeStrDesc e d := by
  intro d e
  unfold mergeStrDesc
  exact lexLe_total e.dropdown d.dropdown

theorem mergeStrDesc_trans :
    ∀ d e f : Dropdown, mergeStrDesc d e → mergeStrDesc e f → mergeStrDesc d f := by
  intro d e f h1 h2
  unfold mergeStrDesc at h1 h2 ⊢
  exact lexLe_trans _ _ _ h2 h1

/-! ### Stable-sort lemmas (insertion sort models Python's stable `sorted`) -/

theorem orderedInsert_swap {α : Type} (r : α → α → Prop) [DecidableRel r]
    (htot : ∀ a b, r a b ∨ r b a) (htrans : ∀ a b c, r a b → r b c → r a c)
    (a y : α) (hay : ¬ r a y) :
    ∀ s : List α, List.orderedInsert r y (List.orderedInsert r a s)
      = List.orderedInsert r a (List.orderedInsert r y s)
  | [] => by
    have hya : r y a := (htot a y).resolve_left hay
    simp [List.orderedInsert, hya, hay]
  | z :: s => by
    have hya : r y a := (htot a y).resolve_left hay
    by_cases haz : r a z
    · have hyz : r y z := htrans y a z hya haz
      simp [List.orderedInsert, haz, hyz, hya, hay]
    · by_cases hyz : r y z
      · simp [List.orderedInsert, haz, hyz, hay]
      · simp [List.orderedInsert, haz, hyz,
          orderedInsert_swap r htot htrans a y hay s]

theorem insertionSort_orderedInsert_append {α : Type} (r : α → α → Prop) [DecidableRel r]
    (htot : ∀ a b, r a b ∨ r b a) (htrans : ∀ a b c, r a b → r b c → r a c) (x : α) :
    ∀ (l ys : List α), List.insertionSort r (List.orderedInsert r x l ++ ys)
      = List.orderedInsert r x (List.insertionSort r (l ++ ys))
  | [], ys => by simp [List.orderedInsert, List.insertionSort]
  | y :: l, ys => by
    by_cases hxy : r x y
    · simp [List.orderedInsert, hxy, List.insertionSort]
    · simp only [List.orderedInsert, hxy, if_false, List.cons_append, List.insertionSort]
      rw [insertionSort_orderedInsert_append r htot htrans x l ys]
      exact orderedInsert_swap r htot htrans x y hxy (List.insertionSort r (l ++ ys))

theorem insertionSort_append_idem {α : Type} (r : α → α → Prop) [DecidableRel r]
    (htot : ∀ a b, r a b ∨ r b a) (htrans : ∀ a b c, r a b → r b c → r a c) :
    ∀ (l ys : List α), List.insertionSort r (List.insertionSort r l ++ ys)
      = List.insertionSort r (l ++ ys)
  | [], _ => rfl
  | a :: l, ys => by
    simp only [List.insertionSort, List.cons_append]
    rw [insertionSort_orderedInsert_append r htot htrans a (List.insertionSort r l) ys,
        insertionSort_append_idem r htot htrans l ys]
    rfl

theorem orderedInsert_eq_cons_of_forall {α : Type} (r : α → α → Prop) [DecidableRel r]
    (a : α) : ∀ m : List α, (∀ z ∈ m, r a z) → List.orderedInsert r a m = a :: m
  | [], _ => rfl
  | z :: m, h => by simp [List.orderedInsert, h z (by simp)]

theorem filter_orderedInsert_sorted {α : Type} (r : α → α → Prop) [DecidableRel r]
    (htrans : ∀ a b c, r a b → r b c → r a c) (q : α → Bool) (a : α) :
    ∀ l : List α, List.Sorted r l →
      (List.orderedInsert r a l).filter q
        = if q a then List.orderedInsert r a (l.filter q) else l.filter q
  | [], _ => by
    cases hqa : q a <;> simp [List.orderedInsert, List.filter, hqa]
  | y :: l', hsort => by
    obtain ⟨hy, hl⟩ := List.sorted_cons.mp hsort
    by_cases hay : r a y
    · cases hqa : q a
      · simp [List.orderedInsert, hay, List.filter_cons, hqa]
      · have hall : ∀ z ∈ (y :: l').filter q, r a z := by
          intro z hz
          have hz2 := List.mem_of_mem_filter hz
          rcases List.mem_cons.mp hz2 with rfl | hz3
          · exact hay
          · exact htrans a y z hay (hy z hz3)
        have hc := orderedInsert_eq_cons_of_forall r a ((y :: l').filter q) hall
        rw [show List.orderedInsert r a (y :: l') = a :: y :: l' by
              simp [List.orderedInsert, hay],
            List.filter_cons, if_pos hqa]
        simp [hc]
    · have ih := filter_orderedInsert_sorted r htrans q a l' hl
      cases hqy : q y
      · simp [List.orderedInsert, hay, List.filter_cons, hqy, ih]
      · cases hqa : q a <;>
          simp [List.orderedInsert, hay, List.filter_cons, hqy, ih, hqa]

theorem filter_insertionSort_comm {α : Type} (r : α → α → Prop) [DecidableRel r]
    (htot : ∀ a b, r a b ∨ r b a) (htrans : ∀ a b c, r a b → r b c → r a c)
    (q : α → Bool) :
    ∀ l : List α, (List.insertionSort r l).filter q = List.insertionSort r (l.filter q)
  | [] => rfl
  | a :: l => by
    have hsorted : List.Sorted r (List.insertionSort r l) := by
      letI : IsTotal α r := ⟨htot⟩
      letI : IsTrans α r := ⟨fun a b c => htrans a b c⟩
      exact List.sorted_insertionSort r l
    have ih := filter_insertionSort_comm r htot htrans q l
    have he := filter_orderedInsert_sorted r htrans q a _ hsorted
    cases hqa : q a
    · simp [List.insertionSort, List.filter_cons, hqa, he, ih]
    · simp [List.insertionSort, List.filter_cons, hqa, he, ih]

/-! ### C1 -/

/-- C1: deployment of v0.4.17 over a Prod manifest with dropdowns
[v0.3.14, v0.4.16].  The three-source merge `merge_docs_json` performs no
prefix eviction: its merged list retains v0.4.16 (first conjunct), contrary
to the claim, the module's own docstring ("When deploying v0.4.17, any
existing v0.4.x versions are removed") and the sibling
`DocsJsonUpdater.update_navigation`, which does evict (second conjunct). -/
theorem claim_C1 :
    sdkDropdownKeys
        (merge_docs_json
          (mkManifest [mkSdkTabD [mkDropdown ("v0.3.14").data, mkDropdown ("v0.4.16").data]])
          (mkManifest [mkSdkTabD []])
          (mkManifest [mkSdkTabD [mkDropdown ("v0.4.17").data]]))
      = [("v0.4.17").data, ("v0.4.16").data, ("v0.3.14").data] ∧
    (updateDropdowns [mkDropdown ("v0.3.14").data, mkDropdown ("v0.4.16").data]
        (mkDropdown ("v0.4.17").data)).map Dropdown.dropdown
      = [("v0.4.17").data, ("v0.3.14").data] :=
  ⟨by decide, by decide⟩

/-! ### C2 -/

/-- C2 counterexample: the final sort of `merge_docs_json` orders
["v0.3", "latest", "v0.10"] as ["v0.3", "v0.10", "latest"], not the claimed
["latest", "v0.10", "v0.3"]; and in `_sort_dropdowns` an unparsable key does
not always sort last: "bogus" keeps its place ahead of "v0" (their sort keys
tie at `(0,)`). -/
theorem claim_C2_cex :
    ((sortDropdownsByName
          [mkDropdown ("v0.3").data, mkDropdown ("latest").data, mkDropdown ("v0.10").data]).map
        Dropdown.dropdown
      = [("v0.3").data, ("v0.10").data, ("latest").data] ∧
     (sortDropdownsByName
          [mkDropdown ("v0.3").data, mkDropdown ("latest").data, mkDropdown ("v0.10").data]).map
        Dropdown.dropdown
      ≠ [("latest").data, ("v0.10").data, ("v0.3").data]) ∧
    (sortDropdowns [mkDropdown ("bogus").data, mkDropdown ("v0").data]).map Dropdown.dropdown
      = [("bogus").data, ("v0").data] := by
  refine ⟨⟨by decide, by decide⟩, by decide⟩

/-- C2 (amended): `DocsJsonUpdater._sort_dropdowns` sorts by descending
parsed version with "latest" first (its key parse strips a leading 'v',
splits on '.', and maps unparsable keys to the tuple (0,), which need not
sort last); on ["v0.3", "latest", "v0.10"] it yields
["latest", "v0.10", "v0.3"].  `merge_docs_json`'s final sort instead orders
by the raw key string descending.  Both sorts are stable total-preorder
sorts of their input. -/
theorem claim_C2 :
    (sortDropdowns
          [mkDropdown ("v0.3").data, mkDropdown ("latest").data, mkDropdown ("v0.10").data]).map
        Dropdown.dropdown
      = [("latest").data, ("v0.10").data, ("v0.3").data] ∧
    (sortDropdownsByName
          [mkDropdown ("v0.3").data, mkDropdown ("latest").data, mkDropdown ("v0.10").data]).map
        Dropdown.dropdown
      = [("v0.3").data, ("v0.10").data, ("latest").data] ∧
    (∀ l, List.Sorted dropdownVerGE (sortDropdowns l) ∧ List.Perm (sortDropdowns l) l) ∧
    (∀ l, List.Sorted mergeStrDesc (sortDropdownsByName l) ∧
      List.Perm (sortDropdownsByName l) l) := by
  refine ⟨by decide, by decide, fun l => ⟨?_, ?_⟩, fun l => ⟨?_, ?_⟩⟩
  · letI : IsTotal Dropdown dropdownVerGE := ⟨dropdownVerGE_total⟩
    letI : IsTrans Dropdown dropdownVerGE := ⟨dropdownVerGE_trans⟩
    exact List.sorted_insertionSort _ l
  · exact List.perm_insertionSort _ l
  · letI : IsTotal Dropdown mergeStrDesc := ⟨mergeStrDesc_total⟩
    letI : IsTrans Dropdown mergeStrDesc := ⟨mergeStrDesc_trans⟩
    exact List.sorted_insertionSort _ l
  · exact List.perm_insertionSort _ l

/-! ### C3 -/

/-- C3: whenever both manifests contain an SDK tab, `merge_sdk_dropdowns`
fails with an AttributeError (the reference `DocsJsonUpdater.sort_dropdowns`
does not exist in the class namespace, which only defines `_sort_dropdowns`)
and therefore never returns normally. -/
theorem claim_C3 (existingDocs newDocs : Manifest)
    (h1 : (find_sdk_tab existingDocs).isSome = true)
    (h2 : (find_sdk_tab newDocs).isSome = true) :
    ∃ msg, merge_sdk_dropdowns existingDocs newDocs = .error (.attributeError msg) := by
  obtain ⟨exT, hx⟩ := Option.isSome_iff_exists.mp h1
  obtain ⟨newT, hy⟩ := Option.isSome_iff_exists.mp h2
  refine ⟨("type object DocsJsonUpdater has no attribute sort_dropdowns").data, ?_⟩
  unfold merge_sdk_dropdowns
  rw [hx, hy]
  exact if_neg (show ¬ (("sort_dropdowns").data ∈ docsJsonUpdaterAttrs) from by decide)

/-- Witness for C3 at two one-tab manifests both holding an SDK tab. -/
theorem claim_C3_witness :
    ∃ msg, merge_sdk_dropdowns (mkManifest [mkSdkTabD [mkDropdown ("v0.1").data]])
        (mkManifest [mkSdkTabD [mkDropdown ("latest").data]])
      = .error (.attributeError msg) :=
  claim_C3 (mkManifest [mkSdkTabD [mkDropdown ("v0.1").data]])
    (mkManifest [mkSdkTabD [mkDropdown ("latest").data]]) (by decide) (by decide)

/-! ### C6 -/

theorem eq_cons_of_startsWithV {s : Str} (h : pyStartsWith ['v'] s = true) :
    s = 'v' :: s.tail := by
  cases s with
  | nil => exact absurd h (by decide)
  | cons c cs =>
    rw [pyStartsWithV_cons] at h
    rw [← eq_of_beq h]
    rfl

/-- The extracted major.minor value is a prefix of the version key it was
extracted from. -/
theorem extractMajorMinor?_isPre {k p : Str} (h : extractMajorMinor? k = some p) :
    pyStartsWith p k = true := by
  unfold extractMajorMinor? at h
  cases hm : matchV? k with
  | none => rw [hm] at h; exact absurd h (by simp)
  | some abr =>
    obtain ⟨a, b, r⟩ := abr
    rw [hm] at h
    simp only [Option.some.injEq] at h
    subst h
    unfold matchV? at hm
    split at hm
    · rename_i hv
      have hk := eq_cons_of_startsWithV hv
      obtain ⟨hdec, _, _, _, _⟩ := matchVMajorMinor?_sound hm
      have hpre : ('v' :: (a ++ '.' :: b)) <+: k := by
        rw [hk, hdec]
        refine ⟨r, ?_⟩
        simp [List.append_assoc]
      exact List.isPrefixOf_iff_prefix.mpr hpre
    · exact absurd hm (by simp)

/-- C6 (amended): re-applying the navigation update to its own output with
the same new dropdown leaves the dropdown list unchanged, provided the new
dropdown's key yields a major.minor eviction value (i.e. matches
`v\d+\.\d+`); the filter-evict-append-sort pipeline is then idempotent. -/
theorem updateDropdowns_of_extract_some {existing : List Dropdown} {nd : Dropdown} {p : Str}
    (hp : extractMajorMinor? nd.dropdown = some p) :
    updateDropdowns existing nd
      = sortDropdowns (existing.filter (fun d => !(pyStartsWith p d.dropdown)) ++ [nd]) := by
  unfold updateDropdowns
  simp only [hp]

theorem claim_C6 (existing : List Dropdown) (nd : Dropdown) (p : Str)
    (hp : extractMajorMinor? nd.dropdown = some p) :
    updateDropdowns (updateDropdowns existing nd) nd = updateDropdowns existing nd := by
  have hkeep : (!(pyStartsWith p nd.dropdown)) = false := by
    rw [extractMajorMinor?_isPre hp]
    rfl
  rw [updateDropdowns_of_extract_some hp, updateDropdowns_of_extract_some hp]
  unfold sortDropdowns
  rw [filter_insertionSort_comm dropdownVerGE dropdownVerGE_total dropdownVerGE_trans]
  have h1 : (existing.filter (fun d => !(pyStartsWith p d.dropdown)) ++ [nd]).filter
        (fun d => !(pyStartsWith p d.dropdown))
      = existing.filter (fun d => !(pyStartsWith p d.dropdown)) := by
    rw [List.filter_append, List.filter_filter]
    simp [List.filter_cons, hkeep, Bool.and_self]
  rw [h1, insertionSort_append_idem dropdownVerGE dropdownVerGE_total dropdownVerGE_trans]

/-- C6 counterexample: with the generated dropdown keyed "latest" (as the
Generated manifest's dropdown is), no eviction value exists, so a second
application appends a duplicate and the list changes. -/
theorem claim_C6_cex :
    (updateDropdowns (updateDropdowns [] (mkDropdown ("latest").data))
        (mkDropdown ("latest").data)).map Dropdown.dropdown
      ≠ (updateDropdowns [] (mkDropdown ("latest").data)).map Dropdown.dropdown := by
  decide

/-! ### C7 -/

mutual
theorem replacePathsEntry_eq_mapLeaves (old new : Str) :
    ∀ e : PageEntry, replacePathsEntry old new e = mapLeavesEntry (pyReplace old new) e
  | .path _ => rfl
  | .sub g => by
    simp only [replacePathsEntry, mapLeavesEntry, replacePaths_eq_mapLeaves old new g]

theorem replacePaths_eq_mapLeaves (old new : Str) :
    ∀ g : NavGroup, replacePaths old new g = mapLeaves (pyReplace old new) g
  | .mk _ _ pages => by
    simp only [replacePaths, mapLeaves, replacePathsList_eq_mapLeaves old new pages]

theorem replacePathsList_eq_mapLeaves (old new : Str) :
    ∀ es : List PageEntry, replacePathsList old new es = mapLeavesList (pyReplace old new) es
  | [] => rfl
  | e :: es => by
    simp only [replacePathsList, mapLeavesList, replacePathsEntry_eq_mapLeaves old new e,
      replacePathsList_eq_mapLeaves old new es]
end

mutual
theorem pageLeavesEntry_replace (old new : Str) :
    ∀ e, pageLeavesEntry (replacePathsEntry old new e) = (pageLeavesEntry e).map (pyReplace old new)
  | .path _ => rfl
  | .sub g => by
    simp only [replacePathsEntry, pageLeavesEntry, pageLeaves_replace old new g]

theorem pageLeaves_replace (old new : Str) :
    ∀ g, pageLeaves (replacePaths old new g) = (pageLeaves g).map (pyReplace old new)
  | .mk _ _ pages => by
    simp only [replacePaths, pageLeaves, pageLeavesList_replace old new pages]

theorem pageLeavesList_replace (old new : Str) :
    ∀ es, pageLeavesList (replacePathsList old new es) = (pageLeavesList es).map (pyReplace old new)
  | [] => rfl
  | e :: es => by
    simp only [replacePathsList, pageLeavesList, List.map_append,
      pageLeavesEntry_replace old new e, pageLeavesList_replace old new es]
end

mutual
theorem groupTitlesEntry_replace (old new : Str) :
    ∀ e, groupTitlesEntry (replacePathsEntry old new e) = groupTitlesEntry e
  | .path _ => rfl
  | .sub g => by
    simp only [replacePathsEntry, groupTitlesEntry, groupTitles_replace old new g]

theorem groupTitles_replace (old new : Str) :
    ∀ g, groupTitles (replacePaths old new g) = groupTitles g
  | .mk _ _ pages => by
    simp only [replacePaths, groupTitles, groupTitlesList_replace old new pages]

theorem groupTitlesList_replace (old new : Str) :
    ∀ es, groupTitlesList (replacePathsList old new es) = groupTitlesList es
  | [] => rfl
  | e :: es => by
    simp only [replacePathsList, groupTitlesList, groupTitlesEntry_replace old new e,
      groupTitlesList_replace old new es]
end

mutual
theorem groupIconsEntry_replace (old new : Str) :
    ∀ e, groupIconsEntry (replacePathsEntry old new e) = groupIconsEntry e
  | .path _ => rfl
  | .sub g => by
    simp only [replacePathsEntry, groupIconsEntry, groupIcons_replace old new g]

theorem groupIcons_replace (old new : Str) :
    ∀ g, groupIcons (replacePaths old new g) = groupIcons g
  | .mk _ _ pages => by
    simp only [replacePaths, groupIcons, groupIconsList_replace old new pages]

theorem groupIconsList_replace (old new : Str) :
    ∀ es, groupIconsList (replacePathsList old new es) = groupIconsList es
  | [] => rfl
  | e :: es => by
    simp only [replacePathsList, groupIconsList, groupIconsEntry_replace old new e,
      groupIconsList_replace old new es]
end

/-- C7: `replace_paths` substitutes the old prefix for the new one in every
string leaf of an arbitrarily nested pages/groups subtree (it coincides with
the spec-side leaf-map and rewrites the leaf list pointwise with Python's
`str.replace`), handles both dict and string page entries, and leaves the
non-page keys (group titles and icons, at every nesting level) unchanged. -/
theorem claim_C7 (old new : Str) (g : NavGroup) :
    replacePaths old new g = mapLeaves (pyReplace old new) g ∧
    pageLeaves (replacePaths old new g) = (pageLeaves g).map (pyReplace old new) ∧
    groupTitles (replacePaths old new g) = groupTitles g ∧
    groupIcons (replacePaths old new g) = groupIcons g :=
  ⟨replacePaths_eq_mapLeaves old new g, pageLeaves_replace old new g,
   groupTitles_replace old new g, groupIcons_replace old new g⟩

/-! ### C5 -/

/-- C5 (amended): the removal step of the stage pipeline leaves no path under
sdk/latest in the output it copies (first conjunct, unconditional); when the
cloned branch carries no sdk/latest paths, the whole deployed tree has none
(second conjunct). -/
theorem claim_C5 :
    (∀ (output : List Str) (p : Str), p ∈ rmtree (("sdk/latest").data) output →
      underDir (("sdk/latest").data) p = false) ∧
    (∀ (repo output : List Str) (p : Str),
      (∀ q ∈ repo, underDir (("sdk/latest").data) q = false) →
      p ∈ deploy_to_stage_tree repo output →
      underDir (("sdk/latest").data) p = false) := by
  constructor
  · intro output p hp
    have h := List.of_mem_filter hp
    simpa using h
  · intro repo output p hrepo hp
    simp only [deploy_to_stage_tree] at hp
    rcases List.mem_append.mp hp with h | h
    · exact hrepo p (List.mem_of_mem_filter h)
    · have h2 := List.of_mem_filter h
      simpa using h2

/-- C5 counterexample: the `deploy` path of src/doctools/deploy.py copies the
sdk/latest subtree into the docs repository and keeps the "latest" dropdown
(with its sdk/latest page paths) next to the versioned copy in the docs.json
it writes, dev deploys included. -/
theorem claim_C5_cex :
    (("sdk/latest/config.mdx").data) ∈
        deployCopySdkPaths [("config.mdx").data] (("v0.4.17").data) ∧
    (deployAppendVersionDropdown
          [Dropdown.mk (("latest").data) none
            [NavGroup.mk (("API").data) none [PageEntry.path (("sdk/latest/foo").data)]]]
          (("v0.4.17").data)).map (fun l => l.map Dropdown.dropdown)
      = some [("latest").data, ("v0.4.17").data] ∧
    (deployAppendVersionDropdown
          [Dropdown.mk (("latest").data) none
            [NavGroup.mk (("API").data) none [PageEntry.path (("sdk/latest/foo").data)]]]
          (("v0.4.17").data)).map (fun l => l.map (fun d => d.groups.map pageLeaves))
      = some [[[("sdk/latest/foo").data]], [[("sdk/v0.4.17/foo").data]]] :=
  ⟨by decide, by decide, by decide⟩

/-- Witness for C5 on a concrete repository and output tree. -/
theorem claim_C5_witness :
    ∀ p ∈ deploy_to_stage_tree [("index.mdx").data]
        [("docs.json").data, ("sdk/latest/a.mdx").data, ("sdk/v0.4.17/a.mdx").data],
      underDir (("sdk/latest").data) p = false :=
  fun p hp => claim_C5.2 _ _ p (by decide) hp

/-! ### C8 -/

theorem splitLines_no_nl : ∀ a : Str, '\n' ∉ a → splitLines a = [a]
  | [], _ => rfl
  | c :: a, h => by
    have hc : ¬ c = '\n' := fun he => h (by rw [← he]; exact List.mem_cons_self c a)
    simp only [splitLines, if_neg hc,
      splitLines_no_nl a (fun hm => h (List.mem_cons_of_mem c hm))]

theorem splitLines_append_nl : ∀ (a rest : Str), '\n' ∉ a →
    splitLines (a ++ '\n' :: rest) = a :: splitLines rest
  | [], rest, _ => by simp [splitLines]
  | c :: a, rest, h => by
    have hc : ¬ c = '\n' := fun he => h (by rw [← he]; exact List.mem_cons_self c a)
    have ih := splitLines_append_nl a rest (fun hm => h (List.mem_cons_of_mem c hm))
    simp only [List.cons_append, splitLines, if_neg hc, List.append_eq, ih]

theorem multiParamLines (after : Str) (hafter : '\n' ∉ after) :
    ∀ ps : List Str, ps ≠ [] → (∀ p ∈ ps, '\n' ∉ p) →
      splitLines ((("    ").data) ++ intercalateStr ((",\n    ").data) ps
          ++ ('\n' :: ')' :: after))
        = paramLines ps after
  | [], hne, _ => absurd rfl hne
  | [p], _, hps => by
    have hp : '\n' ∉ p := hps p (List.mem_cons_self p [])
    have hnl : '\n' ∉ (("    ").data) ++ p := by
      intro hm
      rcases List.mem_append.mp hm with h | h
      · exact absurd h (by decide)
      · exact hp h
    have hca : '\n' ∉ ')' :: after := by
      intro hm
      rcases List.mem_cons.mp hm with h | h
      · exact absurd h (by decide)
      · exact hafter h
    simp only [intercalateStr]
    rw [splitLines_append_nl ((("    ").data) ++ p) (')' :: after) hnl,
      splitLines_no_nl (')' :: after) hca]
    rfl
  | p :: p2 :: ps, _, hps => by
    have hp : '\n' ∉ p := hps p (List.mem_cons_self p _)
    have hnl1 : '\n' ∉ (("    ").data) ++ p ++ [','] := by
      intro hm
      rcases List.mem_append.mp hm with h | h
      · rcases List.mem_append.mp h with h2 | h2
        · exact absurd h2 (by decide)
        · exact hp h2
      · exact absurd h (by decide)
    have hsep : ((",\n    ").data) = ',' :: '\n' :: (("    ").data) := rfl
    have hregroup :
        (("    ").data) ++ intercalateStr ((",\n    ").data) (p :: p2 :: ps)
            ++ ('\n' :: ')' :: after)
          = ((("    ").data) ++ p ++ [','])
            ++ ('\n' :: ((("    ").data) ++ intercalateStr ((",\n    ").data) (p2 :: ps)
                ++ ('\n' :: ')' :: after))) := by
      rw [show intercalateStr ((",\n    ").data) (p :: p2 :: ps)
            = p ++ ((",\n    ").data) ++ intercalateStr ((",\n    ").data) (p2 :: ps) from rfl,
        hsep]
      simp [List.append_assoc]
    rw [hregroup,
      splitLines_append_nl ((("    ").data) ++ p ++ [',']) _ hnl1,
      multiParamLines after hafter (p2 :: ps) (by simp)
        (fun q hq => hps q (List.mem_cons_of_mem p hq))]
    rfl

/-- C8: the signature formatter renders zero parameters as `name()` and one
parameter as `name(x: int)`, each on one line, and renders two or more
parameters one per indented line with every line comma-terminated except the
last (concrete three-parameter case, and the general line shape of the
multi-parameter rendering used by `_format_signature_manual` line 144-145). -/
theorem claim_C8 :
    document_signature_line (("name").data) (("()").data) = .ok (("name()").data) ∧
    document_signature_line (("name").data) (("(x: int)").data)
      = .ok (("name(x: int)").data) ∧
    document_signature_line (("name").data) (("(a: int, b: str, c: bool)").data)
      = .ok (("name(\n    a: int,\n    b: str,\n    c: bool\n)").data) ∧
    (∀ (ps : List Str) (after : Str), ps ≠ [] → (∀ p ∈ ps, '\n' ∉ p) → '\n' ∉ after →
      splitLines (('(' :: '\n' :: ("    ").data) ++ intercalateStr ((",\n    ").data) ps
          ++ ('\n' :: ')' :: after))
        = ['('] :: paramLines ps after) := by
  refine ⟨rfl, rfl, rfl, ?_⟩
  intro ps after hne hnl hafter
  have hshape : ('(' :: '\n' :: ("    ").data) ++ intercalateStr ((",\n    ").data) ps
        ++ ('\n' :: ')' :: after)
      = '(' :: '\n' :: ((("    ").data) ++ intercalateStr ((",\n    ").data) ps
        ++ ('\n' :: ')' :: after)) := by
    simp [List.append_assoc]
  rw [hshape]
  have h2 : splitLines ('\n' :: ((("    ").data) ++ intercalateStr ((",\n    ").data) ps
        ++ ('\n' :: ')' :: after)))
      = [] :: splitLines ((("    ").data) ++ intercalateStr ((",\n    ").data) ps
        ++ ('\n' :: ')' :: after)) := by
    simp [splitLines]
  have h1 : splitLines ('(' :: '\n' :: ((("    ").data) ++ intercalateStr ((",\n    ").data) ps
        ++ ('\n' :: ')' :: after)))
      = ['('] :: splitLines ((("    ").data) ++ intercalateStr ((",\n    ").data) ps
        ++ ('\n' :: ')' :: after)) := by
    rw [splitLines, if_neg (by decide : ¬ ('(' : Char) = '\n'), h2]
  rw [h1, multiParamLines after hafter ps hne hnl]

/-- Witness for C8's universal part at two concrete parameters. -/
theorem claim_C8_witness :
    splitLines (('(' :: '\n' :: ("    ").data)
        ++ intercalateStr ((",\n    ").data) [("a: int").data, ("b: str").data]
        ++ ('\n' :: ')' :: (("-> bool").data)))
      = ['('] :: paramLines [("a: int").data, ("b: str").data] (("-> bool").data) :=
  claim_C8.2.2.2 [("a: int").data, ("b: str").data] (("-> bool").data) (by decide) (by decide)
    (by decide)

/-! ### C9 -/

theorem replaceFuel_cons_ne {o c : Char} (os new : Str) (h : ¬ o = c) (fuel : Nat)
    (cs : Str) :
    replaceFuel o os new (fuel + 1) (c :: cs) = c :: replaceFuel o os new fuel cs := by
  have hpre : ((o :: os).isPrefixOf (c :: cs)) = false := by
    simp [List.isPrefixOf, beq_eq_false_iff_ne.mpr h]
  simp only [replaceFuel, hpre, Bool.false_eq_true, if_false]

theorem replaceFuel_match (o : Char) (os new rest : Str) (fuel : Nat) :
    replaceFuel o os new (fuel + 1) (o :: (os ++ rest))
      = new ++ replaceFuel o os new fuel rest := by
  have hpre : ((o :: os).isPrefixOf (o :: (os ++ rest))) = true :=
    List.isPrefixOf_iff_prefix.mpr ⟨rest, by simp⟩
  simp only [replaceFuel, hpre, if_true]
  rw [List.drop_left]

theorem replaceFuel_not_mem (o : Char) (os new : Str) :
    ∀ (s : Str) (fuel : Nat), s.length ≤ fuel → o ∉ s → replaceFuel o os new fuel s = s
  | [], fuel, _, _ => by cases fuel <;> rfl
  | c :: cs, fuel, hf, h => by
    cases fuel with
    | zero => simp at hf
    | succ fuel =>
      have hne : ¬ o = c := fun he => h (by rw [he]; exact List.mem_cons_self c cs)
      have hf2 : cs.length ≤ fuel := by
        simp only [List.length_cons] at hf
        omega
      rw [replaceFuel_cons_ne os new hne fuel cs,
        replaceFuel_not_mem o os new cs fuel hf2 (fun hm => h (List.mem_cons_of_mem c hm))]

theorem replaceFuel_skip (o : Char) (os new : Str) :
    ∀ (pre s : Str) (fuel : Nat), o ∉ pre →
      replaceFuel o os new (pre.length + fuel) (pre ++ s)
        = pre ++ replaceFuel o os new fuel s
  | [], s, fuel, _ => by simp
  | c :: pre, s, fuel, h => by
    have hne : ¬ o = c := fun he => h (by rw [he]; exact List.mem_cons_self c pre)
    have hlen : (c :: pre).length + fuel = (pre.length + fuel) + 1 := by
      simp only [List.length_cons]
      omega
    rw [List.cons_append, hlen, replaceFuel_cons_ne os new hne (pre.length + fuel) (pre ++ s),
      replaceFuel_skip o os new pre s fuel (fun hm => h (List.mem_cons_of_mem c hm))]
    rfl

theorem startsHH_false_append (pre rest : Str)
    (h : pyStartsWith (("## ").data) pre = false) :
    pyStartsWith (("## ").data) (pre ++ '\n' :: rest) = false := by
  match pre with
  | [] =>
    have heq : (('#' : Char) == '\n') = false := by decide
    simp [pyStartsWith, List.isPrefixOf, heq]
  | [c1] =>
    have heq : (('#' : Char) == '\n') = false := by decide
    simp [pyStartsWith, List.isPrefixOf, heq]
  | [c1, c2] =>
    have heq : ((' ' : Char) == '\n') = false := by decide
    simp [pyStartsWith, List.isPrefixOf, heq]
  | c1 :: c2 :: c3 :: pre2 =>
    simp only [pyStartsWith, List.isPrefixOf, List.cons_append] at h ⊢
    simpa using h

/-- C9 (amended): every level-2 heading in a release body is demoted by two
levels to a level-4 heading (`## ` becomes `#### `, at the start of the body
and after every newline), while level-3 headings are left unchanged. -/
theorem claim_C9 :
    (∀ t : Str, '\n' ∉ t →
      demoteHeadings ('#' :: '#' :: ' ' :: t) = '#' :: '#' :: '#' :: '#' :: ' ' :: t) ∧
    (∀ t : Str, '\n' ∉ t →
      demoteHeadings ('#' :: '#' :: '#' :: ' ' :: t) = '#' :: '#' :: '#' :: ' ' :: t) ∧
    (∀ pre t : Str, '\n' ∉ pre → '\n' ∉ t →
      pyStartsWith (("## ").data) pre = false →
      demoteHeadings (pre ++ '\n' :: '#' :: '#' :: ' ' :: t)
        = pre ++ '\n' :: '#' :: '#' :: '#' :: '#' :: ' ' :: t) := by
  refine ⟨?_, ?_, ?_⟩
  · intro t ht
    have hnb : ('\n') ∉ ('#' :: '#' :: ' ' :: t) := by
      intro hm
      rcases List.mem_cons.mp hm with h | hm
      · exact absurd h (by decide)
      rcases List.mem_cons.mp hm with h | hm
      · exact absurd h (by decide)
      rcases List.mem_cons.mp hm with h | hm
      · exact absurd h (by decide)
      · exact ht hm
    have hb1 : pyReplace (("\n## ").data) (("\n#### ").data) ('#' :: '#' :: ' ' :: t)
        = '#' :: '#' :: ' ' :: t :=
      replaceFuel_not_mem '\n' (("## ").data) (("\n#### ").data) _ _ (le_refl _) hnb
    simp only [demoteHeadings, hb1]
    rw [if_pos (by simp [pyStartsWith, List.isPrefixOf])]
    rfl
  · intro t ht
    have hnb : ('\n') ∉ ('#' :: '#' :: '#' :: ' ' :: t) := by
      intro hm
      rcases List.mem_cons.mp hm with h | hm
      · exact absurd h (by decide)
      rcases List.mem_cons.mp hm with h | hm
      · exact absurd h (by decide)
      rcases List.mem_cons.mp hm with h | hm
      · exact absurd h (by decide)
      rcases List.mem_cons.mp hm with h | hm
      · exact absurd h (by decide)
      · exact ht hm
    have hb1 : pyReplace (("\n## ").data) (("\n#### ").data) ('#' :: '#' :: '#' :: ' ' :: t)
        = '#' :: '#' :: '#' :: ' ' :: t :=
      replaceFuel_not_mem '\n' (("## ").data) (("\n#### ").data) _ _ (le_refl _) hnb
    simp only [demoteHeadings, hb1]
    rw [if_neg ?hcond]
    case hcond =>
      intro hcon
      have hfalse : pyStartsWith (("## ").data) ('#' :: '#' :: '#' :: ' ' :: t) = false := by
        have hsp : ((' ' : Char) == '#') = false := by decide
        simp [pyStartsWith, List.isPrefixOf, hsp]
      rw [hfalse] at hcon
      exact absurd hcon (by simp)
  · intro pre t hpre ht hstart
    have hmatch :
        pyReplace (("\n## ").data) (("\n#### ").data) (pre ++ '\n' :: '#' :: '#' :: ' ' :: t)
          = pre ++ '\n' :: '#' :: '#' :: '#' :: '#' :: ' ' :: t := by
      show replaceFuel '\n' (("## ").data) (("\n#### ").data)
          (pre ++ '\n' :: '#' :: '#' :: ' ' :: t).length (pre ++ '\n' :: '#' :: '#' :: ' ' :: t)
        = _
      rw [List.length_append,
        replaceFuel_skip '\n' (("## ").data) (("\n#### ").data) pre
          ('\n' :: '#' :: '#' :: ' ' :: t) (('\n' :: '#' :: '#' :: ' ' :: t).length) hpre]
      have hflen : ('\n' :: '#' :: '#' :: ' ' :: t).length
          = ((("## ").data) ++ t).length + 1 := by
        simp
      have hshape : ('\n' :: '#' :: '#' :: ' ' :: t)
          = '\n' :: ((("## ").data) ++ t) := rfl
      rw [hflen, hshape,
        replaceFuel_match '\n' (("## ").data) (("\n#### ").data) t (((("## ").data) ++ t).length),
        replaceFuel_not_mem '\n' (("## ").data) (("\n#### ").data) t
          (((("## ").data) ++ t).length) (by simp; omega) ht]
      rfl
    simp only [demoteHeadings, hmatch]
    rw [if_neg ?hc2]
    case hc2 =>
      intro hcon
      have hf := startsHH_false_append pre ('#' :: '#' :: '#' :: '#' :: ' ' :: t) hstart
      rw [hf] at hcon
      exact absurd hcon (by simp)

/-- C9 counterexample: a release body consisting of the level-2 heading
"## What Changed" is demoted to level 4, not to the claimed level 3. -/
theorem claim_C9_cex :
    demoteHeadings (("## What Changed").data) = ("#### What Changed").data ∧
    demoteHeadings (("## What Changed").data) ≠ ("### What Changed").data :=
  ⟨by decide, by decide⟩

/-- Witness for C9 on concrete headings. -/
theorem claim_C9_witness :
    demoteHeadings (("## A").data) = ("#### A").data ∧
    demoteHeadings (("### B").data) = ("### B").data ∧
    demoteHeadings (("x").data ++ '\n' :: '#' :: '#' :: ' ' :: ("C").data)
      = ("x").data ++ '\n' :: '#' :: '#' :: '#' :: '#' :: ' ' :: ("C").data :=
  ⟨claim_C9.1 (("A").data) (by decide),
   claim_C9.2.1 (("B").data) (by decide),
   claim_C9.2.2 (("x").data) (("C").data) (by decide) (by decide) (by decide)⟩

/-! ### C10 -/

/-- C10 (amended): a fetch failure raises before any write in both
generators, leaving the directory untouched; a successful changelog run with
at least one release fully clears and rebuilds its directory; a successful
contributors run instead creates-if-missing and overwrites contributors.mdx
in place, preserving other directory contents. -/
theorem claim_C10 :
    (∀ (e : Str) (dir : DirState),
      (generate_changelog_to_dir (.error e) dir).2 = dir ∧
      (∃ msg, (generate_changelog_to_dir (.error e) dir).1 = .error msg) ∧
      (generate_contributors_page (.error e) dir).2 = dir ∧
      (∃ msg, (generate_contributors_page (.error e) dir).1 = .error msg)) ∧
    (∀ (rs : List Str) (dir : DirState), rs ≠ [] →
      generate_changelog_to_dir (.ok rs) dir = (.ok (), some [("changelog.mdx").data])) ∧
    (∀ (cs : List Str) (dir : DirState), cs ≠ [] →
      generate_contributors_page (.ok cs) dir
        = (.ok (), some (((dir.getD []).filter
            (fun f => !(f == ("contributors.mdx").data))) ++ [("contributors.mdx").data]))) := by
  refine ⟨fun e dir => ⟨rfl, ⟨_, rfl⟩, rfl, ⟨_, rfl⟩⟩, ?_, ?_⟩
  · intro rs dir h
    cases rs with
    | nil => exact absurd rfl h
    | cons r rs => rfl
  · intro cs dir h
    cases cs with
    | nil => exact absurd rfl h
    | cons c cs => rfl

/-- C10 counterexample: a successful contributors run over a directory
holding a stale file keeps the stale file (the directory is not cleared and
rebuilt); a successful changelog run that fetched zero releases returns
without touching the directory at all. -/
theorem claim_C10_cex :
    (generate_contributors_page (.ok [("alice").data]) (some [("stale.mdx").data])).2
      = some [("stale.mdx").data, ("contributors.mdx").data] ∧
    (generate_changelog_to_dir (.ok []) (some [("old.mdx").data]))
      = (.ok (), some [("old.mdx").data]) :=
  ⟨by decide, rfl⟩

/-- Witness for C10 at concrete fetch results and directory states. -/
theorem claim_C10_witness :
    (generate_changelog_to_dir (.error (("boom").data)) (some [("a").data])).2
      = some [("a").data] ∧
    generate_changelog_to_dir (.ok [("r1").data]) (some [("a").data])
      = (.ok (), some [("changelog.mdx").data]) ∧
    generate_contributors_page (.ok [("alice").data]) none
      = (.ok (), some [("contributors.mdx").data]) :=
  ⟨(claim_C10.1 (("boom").data) (some [("a").data])).1,
   claim_C10.2.1 [("r1").data] (some [("a").data]) (by decide),
   claim_C10.2.2 [("alice").data] none (by decide)⟩

/-- Witness for C6: one prior dropdown v0.3.14, new dropdown v0.4.17. -/
theorem claim_C6_witness :
    updateDropdowns
        (updateDropdowns [mkDropdown ("v0.3.14").data] (mkDropdown ("v0.4.17").data))
        (mkDropdown ("v0.4.17").data)
      = updateDropdowns [mkDropdown ("v0.3.14").data] (mkDropdown ("v0.4.17").data) :=
  claim_C6 [mkDropdown ("v0.3.14").data] (mkDropdown ("v0.4.17").data) (("v0.4").data)
    (by decide)

end Doctools
